import Mathlib

/-!
Verification model of the Safety-map repository's rating core
(`src/map_loader.py`): `load_ratings` (per-user deduplication of the
persisted rating store, followed by a compaction write-back) and
`apply_ratings` (decay-weighted score aggregation written onto graph
nodes via `update_node_safety`).

Python values are embedded as follows: floats become `Rat`, datetimes
become `Int` (seconds); a timestamp string is modelled by its parse
behaviour under `datetime.fromisoformat` (either it parses to a point in
time, or it raises `ValueError`); exceptions become `Except PyErr`.
Python dicts are insertion-ordered association lists.
-/

deriving instance DecidableEq for Except

namespace SafetyMap

/-- Abstract model of a node-id string, as used for the keys of the
`"nodes"` mapping: what matters to the code is only whether Python `int()`
parses it (`map_loader.py:136`), and to which integer. -/
inductive NodeId where
  | num (n : Int)
  | other (raw : String)
deriving DecidableEq

/-- `int(node_id)`: parses the node-id string or raises `ValueError`
(modelled as `none`, since the caller catches it). -/
def pyInt : NodeId → Option Int
  | .num n => some n
  | .other _ => none

/-- The Python exception classes raised by the modelled code paths. -/
inductive PyErr where
  | valueError
  | typeError
  | nameError
  | keyError
  | zeroDivisionError
deriving DecidableEq

/-- Abstract model of an ISO-8601 timestamp string: `datetime.fromisoformat`
either parses it to a point in time (modelled as an integer count of seconds)
or raises `ValueError`. `raw` keeps distinct unparseable strings distinct. -/
inductive IsoStr where
  | valid (t : Int)
  | invalid (raw : String)
deriving DecidableEq

/-- A Python value that can occupy a record's timestamp field: a JSON string,
or a `datetime` object (`load_ratings` stores parsed datetimes back into the
record dicts it builds). -/
inductive TsVal where
  | s (iso : IsoStr)
  | dt (t : Int)
deriving DecidableEq

/-- `datetime.fromisoformat`: parses a string, raises `ValueError` on a
malformed string, raises `TypeError` on a non-string argument such as a
`datetime` object. -/
def fromisoformat : TsVal → Except PyErr Int
  | .s (.valid t) => .ok t
  | .s (.invalid _) => .error .valueError
  | .dt _ => .error .typeError

/-- A raw rating record as read from `ratings.json`: each field may be
absent from the dict. Scores are JSON numbers, modelled as `Rat`. -/
structure RawRecord where
  user : Option String
  score : Option Rat
  timestamp : Option TsVal
deriving DecidableEq

/-- A cleaned record as built by `load_ratings` (`map_loader.py:118`):
`{"user": user, "score": score, "timestamp": ts}` where `ts` is the parsed
`datetime` object, not the original string. -/
structure CleanRecord where
  user : String
  score : Rat
  timestamp : Int
deriving DecidableEq

/-- `user_latest.get(user)` on the insertion-ordered dict. -/
def dictGet : List (String × CleanRecord) → String → Option CleanRecord
  | [], _ => none
  | p :: ps, k => if p.1 = k then some p.2 else dictGet ps k

/-- `user_latest[user] = v`: updates the existing entry in place, otherwise
appends; insertion order is what `list(user_latest.values())` later exposes. -/
def dictSet : List (String × CleanRecord) → String → CleanRecord →
    List (String × CleanRecord)
  | [], k, v => [(k, v)]
  | p :: ps, k, v => if p.1 = k then (k, v) :: ps else p :: dictSet ps k v

/-- One iteration of the per-record loop of `load_ratings`
(`map_loader.py:102-118`). A record missing `score` or `timestamp` is
skipped. On an unparseable timestamp string, `fromisoformat` raises
`ValueError`, and the `except ValueError` handler evaluates
`print(f"Invalid timestamp for node {node_id}, user {user}: {ts_str}")`
whose `ts_str` is an undefined name, so `NameError` propagates out of the
handler. A `TypeError` from `fromisoformat` is not caught at all. Otherwise
the record replaces the user's current entry iff its timestamp is strictly
larger. -/
def cleanStep (acc : List (String × CleanRecord)) (r : RawRecord) :
    Except PyErr (List (String × CleanRecord)) :=
  let user := r.user.getD "anonymous"
  match r.score, r.timestamp with
  | none, _ => .ok acc
  | some _, none => .ok acc
  | some score, some tsv =>
    match fromisoformat tsv with
    | .error .valueError => .error .nameError
    | .error e => .error e
    | .ok ts =>
      match dictGet acc user with
      | none => .ok (dictSet acc user ⟨user, score, ts⟩)
      | some prev =>
        if prev.timestamp < ts then .ok (dictSet acc user ⟨user, score, ts⟩)
        else .ok acc

/-- The per-record loop of `load_ratings` run over a node's record list,
starting from the accumulated `user_latest` dict. -/
def cleanNodeFrom (acc : List (String × CleanRecord)) :
    List RawRecord → Except PyErr (List (String × CleanRecord))
  | [] => .ok acc
  | r :: rs =>
    match cleanStep acc r with
    | .error e => .error e
    | .ok acc2 => cleanNodeFrom acc2 rs

/-- The `user_latest` dict built for one node (`map_loader.py:101-118`). -/
def cleanNode (records : List RawRecord) :
    Except PyErr (List (String × CleanRecord)) :=
  cleanNodeFrom [] records

/-- `cleaned_nodes` (`map_loader.py:99-120`): per node, in store order,
`list(user_latest.values())`. The first exception aborts the whole load. -/
def cleanStore : List (NodeId × List RawRecord) →
    Except PyErr (List (NodeId × List CleanRecord))
  | [] => .ok []
  | (k, rs) :: ns =>
    match cleanNode rs with
    | .error e => .error e
    | .ok d =>
      match cleanStore ns with
      | .error e => .error e
      | .ok rest => .ok ((k, d.map Prod.snd) :: rest)

/-- `json.dump({"nodes": cleaned_nodes}, f, indent=2)` (`map_loader.py:123`):
every cleaned record holds a `datetime` object in its timestamp field, which
the `json` module cannot serialise, so the dump raises `TypeError` as soon as
any record is present anywhere in the store. -/
def jsonDumpStore (cleaned : List (NodeId × List CleanRecord)) :
    Except PyErr Unit :=
  if cleaned.all (fun p => p.2.isEmpty) then .ok () else .error .typeError

/-- `map_loader.load_ratings` (`map_loader.py:83-125`) applied to the
`"nodes"` mapping of an existing `ratings.json`: deduplicate each node's
records, write the result back to the file, and return it. -/
def load_ratings (store : List (NodeId × List RawRecord)) :
    Except PyErr (List (NodeId × List CleanRecord)) :=
  match cleanStore store with
  | .error e => .error e
  | .ok cleaned =>
    match jsonDumpStore cleaned with
    | .error e => .error e
    | .ok _ => .ok cleaned

/-- A record dict returned by `load_ratings`, viewed again as a raw record:
its timestamp field holds a `datetime` object, not a string. -/
def CleanRecord.toRaw (r : CleanRecord) : RawRecord :=
  ⟨some r.user, some r.score, some (.dt r.timestamp)⟩

/-- `(now - ts).days` (`map_loader.py:148`): `timedelta.days` is the floor
of the difference in whole days, so for seconds-valued times it is floor
division by 86400 (negative when `ts` is in the future). -/
def ageDays (now ts : Int) : Int := Int.fdiv (now - ts) 86400

/-- `weight = max(0.0, 1.0 - age_days / decay_days)` (`map_loader.py:149`). -/
def decayWeight (now ts : Int) (decay : Rat) : Rat :=
  max 0 (1 - (ageDays now ts : Rat) / decay)

/-- One iteration of the per-record loop of `apply_ratings`
(`map_loader.py:143-152`): `r["score"]` and `r["timestamp"]` raise
`KeyError` when absent, the timestamp is parsed with `fromisoformat`, and
`age_days / decay_days` raises `ZeroDivisionError` when `decay_days` is 0.
Yields the record's `(score, weight)` contribution. -/
def recordWeightScore (now : Int) (decay : Rat) (r : RawRecord) :
    Except PyErr (Rat × Rat) :=
  match r.score with
  | none => .error .keyError
  | some q =>
    match r.timestamp with
    | none => .error .keyError
    | some tsv =>
      match fromisoformat tsv with
      | .error e => .error e
      | .ok ts =>
        if decay = 0 then .error .zeroDivisionError
        else .ok (q, decayWeight now ts decay)

/-- The `(score, weight)` pairs accumulated for one node, in record order;
the first failing record aborts the node's whole computation, because the
`try` of `apply_ratings` wraps the entire per-node body. -/
def collectPairs (now : Int) (decay : Rat) :
    List RawRecord → Except PyErr (List (Rat × Rat))
  | [] => .ok []
  | r :: rs =>
    match recordWeightScore now decay r with
    | .error e => .error e
    | .ok p =>
      match collectPairs now decay rs with
      | .error e => .error e
      | .ok ps => .ok (p :: ps)

/-- The per-node body of `apply_ratings` (`map_loader.py:137-156`) after the
node id has been parsed: an empty record list is skipped (`continue`, no
score); otherwise `weights` is non-empty, so the guarded division
`sum(weighted_scores) / sum(weights)` runs, raising `ZeroDivisionError`
when `sum(weights)` is 0. -/
def aggregateNode (now : Int) (decay : Rat) (records : List RawRecord) :
    Except PyErr (Option Rat) :=
  match records with
  | [] => .ok none
  | _ :: _ =>
    match collectPairs now decay records with
    | .error e => .error e
    | .ok pairs =>
      let sumw := (pairs.map Prod.snd).sum
      if sumw = 0 then .error .zeroDivisionError
      else .ok (some ((pairs.map fun p => p.1 * p.2).sum / sumw))

/-- `update_node_safety` (`map_loader.py:22-30`): set the node's safety
annotation if the node exists in the graph, silently no-op otherwise. The
graph is modelled as an association list from integer node id to its
safety annotation. -/
def update_node_safety (G : List (Int × Rat)) (node : Int) (rating : Rat) :
    List (Int × Rat) :=
  G.map fun p => if p.1 = node then (p.1, rating) else p

/-- One iteration of the node loop of `apply_ratings` (`map_loader.py:134-159`):
`int(node_id)`, the empty check, the record loop, the weighted average and the
update, all inside one `try`; any exception is caught, a warning is printed
and the node is skipped wholesale. -/
def applyNode (G : List (Int × Rat)) (now : Int) (decay : Rat)
    (nodeId : NodeId) (records : List RawRecord) : List (Int × Rat) :=
  match pyInt nodeId with
  | none => G
  | some nid =>
    match aggregateNode now decay records with
    | .error _ => G
    | .ok none => G
    | .ok (some s) => update_node_safety G nid s

/-- `apply_ratings` (`map_loader.py:127-159`): fold the node loop over the
ratings mapping in insertion order. -/
def apply_ratings (G : List (Int × Rat))
    (ratings : List (NodeId × List RawRecord)) (now : Int) (decay : Rat) :
    List (Int × Rat) :=
  match ratings with
  | [] => G
  | (k, rs) :: rest => apply_ratings (applyNode G now decay k rs) rest now decay

/-! ## General lemmas about the embedded operations -/

/-- A record with a score and a parseable timestamp string contributes its
unvalidated score together with its decay weight (no range check exists in
the code). -/
theorem recordWeightScore_valid {now : Int} {decay : Rat} {r : RawRecord}
    {q : Rat} {t : Int} (hq : r.score = some q)
    (ht : r.timestamp = some (TsVal.s (IsoStr.valid t))) (hd : decay ≠ 0) :
    recordWeightScore now decay r = .ok (q, decayWeight now t decay) := by
  rw [recordWeightScore, hq, ht]
  simp [fromisoformat, hd]

/-- Inversion: a successful record contribution carries exactly the record's
stored score, and its weight is non-negative. -/
theorem recordWeightScore_ok {now : Int} {decay : Rat} {r : RawRecord}
    {p : Rat × Rat} (h : recordWeightScore now decay r = .ok p) :
    r.score = some p.1 ∧ 0 ≤ p.2 := by
  rw [recordWeightScore] at h
  split at h
  · exact Except.noConfusion h
  next q hq =>
    split at h
    · exact Except.noConfusion h
    next tsv htv =>
      split at h
      · exact Except.noConfusion h
      next ts hts =>
        split at h
        · exact Except.noConfusion h
        · injection h with h1
          subst h1
          exact ⟨hq, le_max_left 0 _⟩

/-- The decay weight is clamped below at 0. -/
theorem decayWeight_nonneg (now t : Int) (decay : Rat) :
    0 ≤ decayWeight now t decay :=
  le_max_left 0 _

/-- Past the decay window the weight is exactly 0. -/
theorem decayWeight_eq_zero {now t : Int} {decay : Rat} (hd : 0 < decay)
    (h : decay ≤ ((ageDays now t : Int) : Rat)) : decayWeight now t decay = 0 := by
  have h1 : 1 ≤ ((ageDays now t : Int) : Rat) / decay := (one_le_div hd).2 h
  have h2 : 1 - ((ageDays now t : Int) : Rat) / decay ≤ 0 := by linarith
  exact max_eq_left h2

/-- A record dated within the current day gets full weight 1. -/
theorem decayWeight_age_zero {now t : Int} (decay : Rat)
    (h : ageDays now t = 0) : decayWeight now t decay = 1 := by
  rw [decayWeight, h]
  norm_num

/-- Every pair produced for a node comes from a record of that node. -/
theorem collectPairs_mem_ok {now : Int} {decay : Rat} :
    ∀ {l : List RawRecord} {ps : List (Rat × Rat)},
      collectPairs now decay l = .ok ps → ∀ p ∈ ps,
      ∃ r ∈ l, recordWeightScore now decay r = .ok p := by
  intro l
  induction l with
  | nil =>
    intro ps h p hp
    rw [collectPairs] at h
    injection h with h1
    subst h1
    cases hp
  | cons r rs ih =>
    intro ps h p hp
    rw [collectPairs] at h
    split at h
    · exact Except.noConfusion h
    next p0 hp0 =>
      split at h
      · exact Except.noConfusion h
      next ps0 hps0 =>
        injection h with h1
        subst h1
        rcases List.mem_cons.1 hp with rfl | hp1
        · exact ⟨r, List.mem_cons_self r rs, hp0⟩
        · obtain ⟨x, hx, ho⟩ := ih hps0 p hp1
          exact ⟨x, List.mem_cons_of_mem r hx, ho⟩

/-- When every record of a node succeeds with weight 0, the node's pair
collection succeeds and all collected weights are 0. -/
theorem collectPairs_all_zero {now : Int} {decay : Rat} :
    ∀ {l : List RawRecord},
      (∀ r ∈ l, ∃ p, recordWeightScore now decay r = .ok p ∧ p.2 = 0) →
      ∃ ps, collectPairs now decay l = .ok ps ∧ ∀ p ∈ ps, p.2 = 0 := by
  intro l
  induction l with
  | nil => exact fun _ => ⟨[], rfl, fun p hp => absurd hp (List.not_mem_nil p)⟩
  | cons r rs ih =>
    intro h
    obtain ⟨p, hp, hp2⟩ := h r (List.mem_cons_self r rs)
    obtain ⟨ps, hps, hz⟩ := ih fun x hx => h x (List.mem_cons_of_mem r hx)
    refine ⟨p :: ps, ?_, ?_⟩
    · simp [collectPairs, hp, hps]
    · intro x hx
      rcases List.mem_cons.1 hx with rfl | hx1
      · exact hp2
      · exact hz x hx1

/-- A node whose aggregation raises any exception is skipped: the graph is
returned unchanged (the per-node `except` swallows the error). -/
theorem applyNode_of_error {now : Int} {decay : Rat} {records : List RawRecord}
    {e : PyErr} (G : List (Int × Rat)) (nid : NodeId)
    (h : aggregateNode now decay records = .error e) :
    applyNode G now decay nid records = G := by
  cases hpi : pyInt nid with
  | none => rw [applyNode, hpi]
  | some n => rw [applyNode, hpi, h]

/-- A node whose aggregation yields no score (empty record list) leaves the
graph unchanged. -/
theorem applyNode_ok_none {now : Int} {decay : Rat} {records : List RawRecord}
    (G : List (Int × Rat)) (nid : NodeId)
    (h : aggregateNode now decay records = .ok none) :
    applyNode G now decay nid records = G := by
  cases hpi : pyInt nid with
  | none => rw [applyNode, hpi]
  | some n => rw [applyNode, hpi, h]

/-- Unfolding form of `recordWeightScore_valid` with an explicit record,
convenient for rewriting on concrete inputs. -/
theorem recordWeightScore_eval (now : Int) (decay : Rat) (u : Option String)
    (q : Rat) (t : Int) (hd : decay ≠ 0) :
    recordWeightScore now decay ⟨u, some q, some (.s (.valid t))⟩ =
      .ok (q, decayWeight now t decay) :=
  recordWeightScore_valid rfl rfl hd

/-! ## Claims -/

/-- C1 (code bug): the dedup core of `load_ratings` does reduce a node's
history to the single maximum-timestamp record per user, but `load_ratings`
itself never returns that mapping on a store with a surviving record: the
compaction write-back `json.dump` meets the `datetime` objects stored in the
cleaned records and raises `TypeError` before the return. -/
theorem C1_load_ratings_crashes_before_returning :
    cleanStore [(.num 1, [⟨some "alice", some (4/5), some (.s (.valid 100))⟩,
                          ⟨some "alice", some (3/10), some (.s (.valid 200))⟩])] =
      .ok [(.num 1, [⟨"alice", 3/10, 200⟩])] ∧
    load_ratings [(.num 1, [⟨some "alice", some (4/5), some (.s (.valid 100))⟩,
                            ⟨some "alice", some (3/10), some (.s (.valid 200))⟩])] =
      .error .typeError := ⟨rfl, rfl⟩

/-- C2 counterexample: a record timestamped one day in the future is accepted
with weight 31/30: the code clamps the weight below at 0.0 but never above,
so the computed weight exceeds 1.0, contradicting the claim. -/
theorem C2_counterexample :
    recordWeightScore 0 30 ⟨some "a", some (1/2), some (.s (.valid 86400))⟩ =
      .ok (1/2, 31/30) ∧ ¬ ((31 : Rat)/30 ≤ 1) := by
  have h : ageDays 0 86400 = -1 := by decide
  have hw : decayWeight 0 86400 30 = 31/30 := by
    rw [decayWeight, h]
    norm_num
  constructor
  · rw [recordWeightScore_eval _ _ _ _ _ (by norm_num), hw]
  · norm_num

/-- C2 amended: a record whose timestamp lies in the future of the reference
time (age_days negative) is not rejected, and its decay weight is
`1 - age_days / decay_days` clamped below at 0 only, which strictly exceeds
full weight 1.0 (there is no clamp at 1.0). -/
theorem C2_amended_future_weight_exceeds_one {now t : Int} {decay : Rat}
    {r : RawRecord} {q : Rat} (hq : r.score = some q)
    (ht : r.timestamp = some (TsVal.s (IsoStr.valid t)))
    (hd : 0 < decay) (hf : ageDays now t < 0) :
    recordWeightScore now decay r = .ok (q, decayWeight now t decay) ∧
      1 < decayWeight now t decay := by
  refine ⟨recordWeightScore_valid hq ht hd.ne', ?_⟩
  have ha : ((ageDays now t : Int) : Rat) < 0 := by exact_mod_cast hf
  have hneg : ((ageDays now t : Int) : Rat) / decay < 0 :=
    div_neg_of_neg_of_pos ha hd
  have h1 : (1 : Rat) < 1 - ((ageDays now t : Int) : Rat) / decay := by linarith
  exact lt_of_lt_of_le h1 (le_max_right 0 _)

/-- Witness for C2 amended at a concrete future-dated record. -/
theorem C2_witness :
    recordWeightScore 0 30 ⟨some "b", some (3/4), some (.s (.valid 86400))⟩ =
      .ok (3/4, decayWeight 0 86400 30) ∧ 1 < decayWeight 0 86400 30 :=
  C2_amended_future_weight_exceeds_one rfl rfl (by norm_num) (by decide)

/-- C3 (code bug): on a record whose timestamp string fails to parse,
`load_ratings` does not warn and continue: the handler evaluates an f-string
referencing the undefined name `ts_str`, so the whole load raises `NameError`
and the sibling valid record of the same node is lost with it. -/
theorem C3_unparseable_timestamp_raises_nameerror :
    load_ratings [(.num 1,
      [⟨some "bob", some (1/2), some (.s (.invalid "2024-13-99T99:99"))⟩,
       ⟨some "alice", some 1, some (.s (.valid 0))⟩])] =
      .error .nameError := rfl

/-- C4 counterexample: a node whose only record is fully decayed (age 40 days,
window 30) does reach the division by zero: `sum(weights)` is 0.0 and the
division raises `ZeroDivisionError` (caught by the per-node handler, so the
annotation still ends at its default 0.5), contradicting the claim that no
division by zero is performed. -/
theorem C4_counterexample :
    aggregateNode (40 * 86400) 30 [⟨some "a", some (1/2), some (.s (.valid 0))⟩] =
      .error .zeroDivisionError ∧
    apply_ratings [(1, 1/2)] [(.num 1, [⟨some "a", some (1/2), some (.s (.valid 0))⟩])]
      (40 * 86400) 30 = [(1, 1/2)] := by
  have h : ageDays (40 * 86400) 0 = 40 := by decide
  have hw : decayWeight (40 * 86400) 0 30 = 0 :=
    decayWeight_eq_zero (by norm_num) (by rw [h]; norm_num)
  have hagg : aggregateNode (40 * 86400) 30
      [⟨some "a", some (1/2), some (.s (.valid 0))⟩] = .error .zeroDivisionError := by
    rw [aggregateNode, collectPairs, collectPairs,
      recordWeightScore_eval _ _ _ _ _ (by norm_num), hw]
    norm_num
  refine ⟨hagg, ?_⟩
  rw [apply_ratings, applyNode_of_error _ _ hagg, apply_ratings]

/-- C4 amended: for a node whose record set is empty, or all of whose records
are well-formed with `age_days ≥ decay_days` (every weight 0), the aggregation
of a non-empty such node raises `ZeroDivisionError`, the per-node handler
catches it, and in all cases the graph is returned unchanged, so the node's
annotation keeps its default 0.5. -/
theorem C4_amended_all_decayed_node_skipped (G : List (Int × Rat)) (now : Int)
    (decay : Rat) (nid : NodeId) (records : List RawRecord) (hd : 0 < decay)
    (h : ∀ r ∈ records, ∃ q t, r.score = some q ∧
         r.timestamp = some (TsVal.s (IsoStr.valid t)) ∧
         decay ≤ ((ageDays now t : Int) : Rat)) :
    (records ≠ [] → aggregateNode now decay records = .error .zeroDivisionError) ∧
    applyNode G now decay nid records = G := by
  have key : records ≠ [] →
      aggregateNode now decay records = .error .zeroDivisionError := by
    intro hne
    have hforall : ∀ r ∈ records,
        ∃ p, recordWeightScore now decay r = .ok p ∧ p.2 = 0 := by
      intro r hr
      obtain ⟨q, t, hq, ht, hage⟩ := h r hr
      exact ⟨(q, decayWeight now t decay), recordWeightScore_valid hq ht hd.ne',
        decayWeight_eq_zero hd hage⟩
    obtain ⟨ps, hps, hz⟩ := collectPairs_all_zero hforall
    have hsum : (ps.map Prod.snd).sum = 0 := by
      apply List.sum_eq_zero
      intro x hx
      obtain ⟨p, hp, rfl⟩ := List.mem_map.1 hx
      exact hz p hp
    cases records with
    | nil => exact absurd rfl hne
    | cons r rs =>
      rw [aggregateNode, hps]
      simp [hsum]
  refine ⟨key, ?_⟩
  cases records with
  | nil => exact applyNode_ok_none G nid rfl
  | cons r rs => exact applyNode_of_error G nid (key (List.cons_ne_nil r rs))

/-- Witness for C4 amended at a concrete fully-decayed node. -/
theorem C4_witness :
    ([⟨some "a", some (1/2), some (.s (.valid 0))⟩] ≠ ([] : List RawRecord) →
      aggregateNode (40 * 86400) 30 [⟨some "a", some (1/2), some (.s (.valid 0))⟩] =
        .error .zeroDivisionError) ∧
    applyNode [(1, 1/2)] (40 * 86400) 30 (.num 1)
      [⟨some "a", some (1/2), some (.s (.valid 0))⟩] = [(1, 1/2)] := by
  apply C4_amended_all_decayed_node_skipped
  · norm_num
  · intro r hr
    simp only [List.mem_singleton] at hr
    subst hr
    refine ⟨1/2, 0, rfl, rfl, ?_⟩
    rw [show ageDays (40 * 86400) 0 = 40 from by decide]
    norm_num

/-- C5 counterexample: a node holding one malformed record (missing score)
and one valid record is skipped wholesale — the node keeps its prior value
0.5 even though the valid sibling alone would have produced score 1 — so the
claim that only the individual bad record is skipped is false. -/
theorem C5_counterexample :
    apply_ratings [(1, 1/2)]
      [(.num 1, [⟨some "bob", none, some (.s (.valid 0))⟩,
                 ⟨some "alice", some 1, some (.s (.valid 0))⟩])] 0 30 = [(1, 1/2)] ∧
    aggregateNode 0 30 [⟨some "alice", some 1, some (.s (.valid 0))⟩] =
      .ok (some 1) := by
  constructor
  · rfl
  · have hw : decayWeight 0 0 30 = 1 := decayWeight_age_zero 30 rfl
    rw [aggregateNode, collectPairs, collectPairs,
      recordWeightScore_eval _ _ _ _ _ (by norm_num), hw]
    norm_num

/-- C5 amended: a malformed record makes the aggregation of its whole node
raise, so the entire node is skipped (not just the record), while the batch
continues with the remaining nodes exactly as if the bad node were absent. -/
theorem C5_amended_bad_record_skips_whole_node (G : List (Int × Rat))
    (now : Int) (decay : Rat) (nid : NodeId) (records : List RawRecord)
    (rest : List (NodeId × List RawRecord)) (e : PyErr)
    (he : aggregateNode now decay records = .error e) :
    apply_ratings G ((nid, records) :: rest) now decay =
      apply_ratings G rest now decay := by
  rw [apply_ratings, applyNode_of_error G nid he]

/-- Witness for C5 amended: a bad node followed by a good node; the run
equals the run on the remaining nodes alone. -/
theorem C5_witness :
    apply_ratings [(1, 1/2), (2, 1/2)]
      [(.num 1, [⟨some "bob", none, some (.s (.valid 0))⟩]),
       (.num 2, [⟨some "alice", some 1, some (.s (.valid 0))⟩])] 0 30 =
    apply_ratings [(1, 1/2), (2, 1/2)]
      [(.num 2, [⟨some "alice", some 1, some (.s (.valid 0))⟩])] 0 30 :=
  C5_amended_bad_record_skips_whole_node _ 0 30 _ _ _ .keyError rfl

/-- C6 (code bug): after a load of a store holding one valid record, no
compacted store is persisted at all: the write-back raises `TypeError`
because the cleaned records hold `datetime` objects the `json` module cannot
serialise, so nothing round-trips in the documented format. -/
theorem C6_compaction_writeback_fails :
    load_ratings [(.num 7, [⟨some "dana", some (1/2), some (.s (.valid 50))⟩])] =
      .error .typeError := rfl

/-- C7 (code bug): the dedup transform is not idempotent as implemented:
its output stores parsed `datetime` objects in the timestamp field, and a
second application calls `fromisoformat` on them, raising `TypeError`
(uncaught, as only `ValueError` is handled) instead of being a no-op. -/
theorem C7_dedup_not_idempotent_on_own_output :
    cleanStore [(.num 1, [⟨some "alice", some (1/2), some (.s (.valid 100))⟩])] =
      .ok [(.num 1, [⟨"alice", 1/2, 100⟩])] ∧
    cleanStore [(.num 1, [CleanRecord.toRaw ⟨"alice", 1/2, 100⟩])] =
      .error .typeError := ⟨rfl, rfl⟩

/-- C8: whenever the aggregator computes a node score (the decay-weighted
average over a necessarily non-empty record set) and every stored score lies
in [0,1] and decay_days > 0, the computed score lies in [0,1]. -/
theorem C8_computed_score_in_unit_interval (now : Int) (decay : Rat)
    (records : List RawRecord) (s : Rat) (hd : 0 < decay)
    (hs : ∀ r ∈ records, ∀ q, r.score = some q → 0 ≤ q ∧ q ≤ 1)
    (hok : aggregateNode now decay records = .ok (some s)) :
    0 ≤ s ∧ s ≤ 1 := by
  cases records with
  | nil => simp [aggregateNode] at hok
  | cons r rs =>
    simp only [aggregateNode] at hok
    split at hok
    · exact Except.noConfusion hok
    next ps hcp =>
      split at hok
      · exact Except.noConfusion hok
      next h0 =>
        injection hok with h1
        injection h1 with h2
        have hw0 : ∀ p ∈ ps, 0 ≤ p.2 := by
          intro p hp
          obtain ⟨x, hx, ho⟩ := collectPairs_mem_ok hcp p hp
          exact (recordWeightScore_ok ho).2
        have hq01 : ∀ p ∈ ps, 0 ≤ p.1 ∧ p.1 ≤ 1 := by
          intro p hp
          obtain ⟨x, hx, ho⟩ := collectPairs_mem_ok hcp p hp
          exact hs x hx p.1 (recordWeightScore_ok ho).1
        have hsumnn : 0 ≤ (ps.map Prod.snd).sum := by
          apply List.sum_nonneg
          intro x hx
          obtain ⟨p, hp, rfl⟩ := List.mem_map.1 hx
          exact hw0 p hp
        have hsumpos : 0 < (ps.map Prod.snd).sum :=
          lt_of_le_of_ne hsumnn (Ne.symm h0)
        have hwsnn : 0 ≤ (ps.map fun p => p.1 * p.2).sum := by
          apply List.sum_nonneg
          intro x hx
          obtain ⟨p, hp, rfl⟩ := List.mem_map.1 hx
          exact mul_nonneg (hq01 p hp).1 (hw0 p hp)
        have hle : (ps.map fun p => p.1 * p.2).sum ≤ (ps.map fun p => p.2).sum :=
          List.sum_le_sum fun p hp =>
            mul_le_of_le_one_left (hw0 p hp) (hq01 p hp).2
        rw [← h2]
        exact ⟨div_nonneg hwsnn hsumnn, (div_le_one hsumpos).2 hle⟩

/-- Witness for C8 at a concrete two-record node. -/
theorem C8_witness : 0 ≤ (1/2 : Rat) ∧ (1/2 : Rat) ≤ 1 := by
  apply C8_computed_score_in_unit_interval 0 30
    [⟨some "alice", some (1/2), some (.s (.valid 0))⟩] (1/2)
  · norm_num
  · intro r hr q hq
    simp only [List.mem_singleton] at hr
    subst hr
    simp only [Option.some.injEq] at hq
    subst hq
    norm_num
  · have hw : decayWeight 0 0 30 = 1 := decayWeight_age_zero 30 rfl
    rw [aggregateNode, collectPairs, collectPairs,
      recordWeightScore_eval _ _ _ _ _ (by norm_num), hw]
    norm_num

/-- C9 counterexample: a record with score 5 (outside [0,1]) passes both the
load-time cleaning and the aggregation untouched: it is kept by the dedup and
sets the node's safety annotation to 5 — it is neither rejected, skipped nor
clamped, and it does contribute to the aggregate. -/
theorem C9_counterexample :
    cleanNode [⟨some "mallory", some 5, some (.s (.valid 0))⟩] =
      .ok [("mallory", ⟨"mallory", 5, 0⟩)] ∧
    apply_ratings [(1, 1/2)]
      [(.num 1, [⟨some "mallory", some 5, some (.s (.valid 0))⟩])] 0 30 =
      [(1, 5)] := by
  constructor
  · rfl
  · have hw : decayWeight 0 0 30 = 1 := decayWeight_age_zero 30 rfl
    rw [apply_ratings, apply_ratings, applyNode]
    simp [pyInt, aggregateNode, collectPairs,
      recordWeightScore_eval _ _ _ _ _ (show (30:Rat) ≠ 0 by norm_num), hw,
      update_node_safety]

/-- C9 amended: scores are never range-validated: a well-formed single-record
node with any score q — in range or not — aggregates to exactly q, unclamped
(shown for a fresh record, where the decay weight is 1). -/
theorem C9_amended_scores_never_validated (now t : Int) (decay : Rat)
    (u : Option String) (q : Rat) (hd : 0 < decay) (h0 : ageDays now t = 0) :
    aggregateNode now decay [⟨u, some q, some (.s (.valid t))⟩] =
      .ok (some q) := by
  have hw : decayWeight now t decay = 1 := decayWeight_age_zero decay h0
  rw [aggregateNode, collectPairs, collectPairs,
    recordWeightScore_eval _ _ _ _ _ hd.ne', hw]
  norm_num

/-- Witness for C9 amended at an out-of-range score. -/
theorem C9_witness :
    aggregateNode 0 30 [⟨some "mallory", some 5, some (.s (.valid 0))⟩] =
      .ok (some 5) :=
  C9_amended_scores_never_validated 0 0 30 (some "mallory") 5 (by norm_num) rfl

/-- C10: when two records from the same user carry exactly equal timestamps,
the strict comparison `ts > prev["timestamp"]` keeps the existing entry, so
deduplication deterministically keeps the record occurring first in list
order (first-occurrence-wins). -/
theorem C10_equal_timestamp_first_wins (u : Option String) (q1 q2 : Rat)
    (t : Int) :
    cleanNode [⟨u, some q1, some (.s (.valid t))⟩,
               ⟨u, some q2, some (.s (.valid t))⟩] =
      .ok [(u.getD "anonymous", ⟨u.getD "anonymous", q1, t⟩)] := by
  simp [cleanNode, cleanNodeFrom, cleanStep, fromisoformat, dictGet, dictSet]

end SafetyMap
